import Mathlib

/-!
Verification development for the tsqgen PostgreSQL query builder.

The definitions below are a shallow embedding of the TypeScript sources:
quote.ts (identifier / string-literal / operator quoting), serialize.ts
(token IR and the `unlex` renderer), expression.ts (the expression AST and
the parameter binder `$`), and select.ts (the subquery state machine and
its serializer).  JavaScript strings are Lean `String`s, JS arrays are
`List`s, optional fields are `Option`s, and functions that can `throw` are
embedded in `Except String` carrying the thrown message.  Finite JS
numbers appearing in queries are embedded as `Int`; the non-finite branch
of literal rendering carries its printed representation as a string.
-/

namespace Tsqgen

/-! ### JavaScript string-primitive helpers (structural, kernel-reducible) -/

/-- JS `s.replace(/q/g, qq)` for a single character `q`: double every occurrence. -/
def escapeChar (q : Char) (s : String) : String :=
  String.mk (s.data.foldr (fun c acc => if c = q then q :: q :: acc else c :: acc) [])

/-- JS `toUpperCase` restricted to ASCII, which is all the reserved-word check needs. -/
def toUpperAscii (s : String) : String := String.mk (s.data.map Char.toUpper)

/-- Does the character list start with the given pattern? -/
def seqStartsWith : List Char → List Char → Bool
  | [], _ => true
  | _ :: _, [] => false
  | p :: ps, c :: cs => p == c && seqStartsWith ps cs

/-- Does the character list contain the pattern as a contiguous subsequence? -/
def containsSeq (pat : List Char) : List Char → Bool
  | [] => seqStartsWith pat []
  | c :: cs => seqStartsWith pat (c :: cs) || containsSeq pat cs

/-- JS `/pat/.test(s)` for a fixed literal pattern: substring containment. -/
def hasSub (s pat : String) : Bool := containsSeq pat.data s.data

/-- The single-quote character, written via its code point. -/
def singleQuote : Char := Char.ofNat 39

/-- The single-quote character as a string. -/
def squote : String := String.singleton singleQuote

/-- The double-quote character. -/
def doubleQuote : Char := Char.ofNat 34

/-- First character of the bare-identifier regex in quote.ts: `[a-z_]`. -/
def isLowerStart (c : Char) : Bool :=
  (Char.ofNat 97 ≤ c && c ≤ Char.ofNat 122) || c == Char.ofNat 95

/-- Continuation character of the bare-identifier regex in quote.ts: `[a-z0-9_]`. -/
def isLowerCont (c : Char) : Bool :=
  isLowerStart c || (Char.ofNat 48 ≤ c && c ≤ Char.ofNat 57)

/-- First character of the regex in serialize.ts needsQuoting: `[a-zA-Z_]`. -/
def isBroadStart (c : Char) : Bool :=
  isLowerStart c || (Char.ofNat 65 ≤ c && c ≤ Char.ofNat 90)

/-- Continuation character of the regex in serialize.ts needsQuoting: `[a-zA-Z0-9_$]`. -/
def isBroadCont (c : Char) : Bool :=
  isBroadStart c || (Char.ofNat 48 ≤ c && c ≤ Char.ofNat 57) || c == Char.ofNat 36

/-- JS `/^[a-z_][a-z0-9_]*$/.test(s)` from quote.ts. -/
def matchesLowerRegex (s : String) : Bool :=
  match s.data with
  | [] => false
  | c :: cs => isLowerStart c && cs.all isLowerCont

/-- JS `/^[a-zA-Z_][a-zA-Z0-9_$]*$/.test(s)` from serialize.ts. -/
def matchesBroadRegex (s : String) : Bool :=
  match s.data with
  | [] => false
  | c :: cs => isBroadStart c && cs.all isBroadCont

namespace Quote

/-- The reserved-keyword set of quote.ts. -/
def reservedKeywords : List String :=
  ["ABSENT", "ALL", "AND", "ANY", "ARRAY", "AS", "ASC", "BETWEEN", "CAST",
   "CROSS", "JOIN", "CUBE", "DESC", "DISTINCT", "EXCEPT", "FILTER", "FOR",
   "FROM", "FULL", "GROUP", "BY", "HAVING", "INNER", "INTERSECT",
   "LATERAL", "LEFT", "LIMIT", "NULL", "OFFSET", "ON", "ORDER", "OVER",
   "RIGHT", "SELECT", "UNION", "UNIQUE", "UPDATE", "USING", "WHERE", "WITH"]

/-- quote.ts `identifier`: force-quote, reserved word, bare lowercase word, else quote. -/
def identifier (ident : String) (forceQuote : Bool) : String :=
  if forceQuote then
    String.singleton doubleQuote ++ escapeChar doubleQuote ident ++ String.singleton doubleQuote
  else if reservedKeywords.contains (toUpperAscii ident) then
    String.singleton doubleQuote ++ escapeChar doubleQuote ident ++ String.singleton doubleQuote
  else if matchesLowerRegex ident then ident
  else
    String.singleton doubleQuote ++ escapeChar doubleQuote ident ++ String.singleton doubleQuote

/-- quote.ts `string`: single-quoted with internal single quotes doubled. -/
def string (lit : String) : String :=
  squote ++ escapeChar singleQuote lit ++ squote

/-- The operator whitelist of quote.ts. -/
def validOperators : List String :=
  ["AND", "OR", "NOT",
   "LIKE", "NOT LIKE", "ILIKE", "NOT ILIKE", "SIMILAR TO", "NOT SIMILAR TO",
   "IS NULL", "IS NOT NULL",
   "IN", "NOT IN", "EXISTS",
   "IS DISTINCT FROM", "IS NOT DISTINCT FROM",
   "COLLATE"]

/-- The symbolic-operator character class of quote.ts. -/
def isOperatorChar (c : Char) : Bool :=
  ['+', '-', '*', '/', '<', '>', '=', '~', '!', '@', '#', '%', Char.ofNat 94,
   '&', '|', Char.ofNat 96, '?'].contains c

/-- JS regex test for the operator character class: at least one such character. -/
def hasOperatorChar (op : String) : Bool := op.data.any isOperatorChar

/-- quote.ts `operator`: whitelist pass-through, else symbolic check rejecting
the comment starters; throws `Invalid operator` otherwise. -/
def operator (op : String) : Except String String :=
  if validOperators.contains op then .ok op
  else if !hasOperatorChar op || hasSub op "--" || hasSub op "/*" then
    .error ("Invalid operator: " ++ op)
  else .ok op

end Quote

/-! ### serialize.ts: token IR and the `unlex` renderer -/

/-- Literal payload: JS `string | number | boolean | null`; the `numNF`
constructor carries the printed form of a non-finite number. -/
inductive Value where
  | str (s : String)
  | num (n : Int)
  | numNF (printed : String)
  | bool (b : Bool)
  | null
deriving DecidableEq

/-- The token sum type of serialize.ts (current revision, with a force-quote
flag on identifiers). -/
inductive Token where
  | keyWord (value : String)
  | identifier (value : String) (forceQuote : Bool)
  | literal (value : Value)
  | operator (value : String)
  | specialCharacter (value : Char)
  | columnReference (tableName : String) (columnName : String)
deriving DecidableEq

/-- serialize.ts `isReservedKeyword` (its own copy of the keyword list, with
JOIN listed twice as in the source). -/
def isReservedKeyword (identifier : String) : Bool :=
  ["ABSENT", "ALL", "AND", "ANY", "ARRAY", "AS", "ASC", "BETWEEN", "CAST",
   "CROSS", "JOIN", "CUBE", "DESC", "DISTINCT", "EXCEPT", "FILTER", "FOR",
   "FROM", "FULL", "GROUP", "BY", "HAVING", "INNER", "INTERSECT", "JOIN",
   "LATERAL", "LEFT", "LIMIT", "NULL", "OFFSET", "ON", "ORDER", "OVER",
   "RIGHT", "SELECT", "UNION", "UNIQUE", "UPDATE", "USING", "WHERE", "WITH"].contains identifier

/-- serialize.ts `needsQuoting`: fails the broad identifier regex or upper-cases
to a reserved keyword. -/
def needsQuoting (identifier : String) : Bool :=
  !matchesBroadRegex identifier || isReservedKeyword (toUpperAscii identifier)

/-- Rendering of a literal token: strings via quote.string, boolean and null via
JS string coercion, finite numbers in decimal, non-finite via quote.string. -/
def renderValue (v : Value) : String :=
  match v with
  | .str s => Quote.string s
  | .num n => toString n
  | .numNF printed => Quote.string printed
  | .bool b => if b then "true" else "false"
  | .null => "null"

/-- serialize.ts `unlex1`: per-token rendering.  Note the force-quote branch
calls quote.identifier without forwarding the flag, exactly as the source does. -/
def unlex1 (token : Token) : Except String String :=
  match token with
  | .keyWord v => .ok v
  | .identifier v force =>
      if force then .ok (Quote.identifier v false)
      else .ok (if needsQuoting v then Quote.identifier v false else v)
  | .literal v => .ok (renderValue v)
  | .operator v => Quote.operator v
  | .specialCharacter c => .ok (String.singleton c)
  | .columnReference t c => .ok (Quote.identifier t false ++ "." ++ Quote.identifier c false)

/-- Disjunct 1 of `needsSpaceAfter`: the token is `(` or `[`. -/
def isOpenBracketTok (token : Token) : Bool :=
  match token with
  | .specialCharacter c => c == '(' || c == '['
  | _ => false

/-- Disjunct 2 of `needsSpaceAfter`: an identifier followed by `(`. -/
def isIdentThenParen (token next : Token) : Bool :=
  match token, next with
  | .identifier _ _, .specialCharacter c => c == '('
  | _, _ => false

/-- Disjunct 3 of `needsSpaceAfter`: a keyword in the tight list. -/
def isTightKeyword (token : Token) : Bool :=
  match token with
  | .keyWord v => ["CAST", "ARRAY", "ANY", "ALL"].contains v
  | _ => false

/-- Disjunct 4 of `needsSpaceAfter`: the next token is `)` or `]`. -/
def isCloseBracketTok (next : Token) : Bool :=
  match next with
  | .specialCharacter c => c == ')' || c == ']'
  | _ => false

/-- Disjunct 5 of `needsSpaceAfter`: the next token is a comma. -/
def isCommaTok (next : Token) : Bool :=
  match next with
  | .specialCharacter c => c == ','
  | _ => false

/-- serialize.ts `needsSpaceAfter` condition (the negated disjunction inside
`unlex`), in the source's disjunct order. -/
def needsSpaceAfter (token next : Token) : Bool :=
  !(isOpenBracketTok token || isIdentThenParen token next || isTightKeyword token
    || isCloseBracketTok next || isCommaTok next)

/-- serialize.ts `unlex`: render each token and join, inserting a space after a
token exactly when the source's `needsSpaceAfter` holds and a next token exists. -/
def unlex : List Token → Except String String
  | [] => .ok ""
  | token :: rest => do
      let s ← unlex1 token
      let tail ← unlex rest
      .ok (s ++ (match rest with
                 | [] => ""
                 | next :: _ => if needsSpaceAfter token next then " " else "") ++ tail)

/-- serialize.ts `commaSeparate` on token lists. -/
def commaSeparate (args : List (List Token)) : List Token :=
  match args with
  | [] => []
  | first :: rest =>
      first ++ rest.foldr (fun ts acc => Token.specialCharacter ',' :: ts ++ acc) []

/-! ### expression.ts: the expression AST

Scalar subqueries used as expressions (`SubqueryExpr`) are modelled by the
separate wrapper `SubqueryExprS` after the subquery state machine below, so
that `Expr` itself stays non-mutual; no claim involves a subquery nested
inside another expression. -/

/-- Ordering direction of an order argument (`ASC`, `DESC`, or `USING op`). -/
inductive Order where
  | asc
  | desc
  | using (op : String)
deriving DecidableEq

/-- Expression nodes of expression.ts.  Constructor names follow the source
classes; `Constant` carries a literal value, `Field` a table/column reference,
and `ParameterExpr` the 0-based index stored by the `$` binder. -/
inductive Expr where
  | Constant (value : Value)
  | CollationIdentifier (name : String)
  | PrefixExpr (op : String) (operand : Expr)
  | PostfixExpr (operand : Expr) (op : String)
  | InfixExpr (left : Expr) (op : String) (right : Expr)
  | MultiOperandExpr (left : Expr) (op : String) (right : List Expr)
  | AnyOrAllExpr (left : Expr) (op : String) (arrayExpr : Expr) (keyword : String)
  | FuncExpr (functionName : String) (args : List Expr)
  | Cast (expression : Expr) (toType : String)
  | ArrayExpr (args : List Expr)
  | Field (tableName : String) (name : String)
  | ParameterExpr (index : Nat)

/-- Order argument `{expr, order?, nulls?}` of expression.ts; `nulls` is the
keyword string `NULLS FIRST` or `NULLS LAST` when present. -/
structure OrderArg where
  expr : Expr
  order : Option Order
  nulls : Option String

mutual

/-- Per-constructor token serialisation from expression.ts. -/
def serializeExpr : Expr → List Token
  | .Constant v => [.literal v]
  | .CollationIdentifier name => [.identifier name true]
  | .PrefixExpr op operand =>
      .specialCharacter '(' :: .operator op :: serializeExpr operand ++ [.specialCharacter ')']
  | .PostfixExpr operand op =>
      .specialCharacter '(' :: serializeExpr operand ++ [.operator op, .specialCharacter ')']
  | .InfixExpr l op r =>
      .specialCharacter '(' :: serializeExpr l ++ .operator op :: serializeExpr r
        ++ [.specialCharacter ')']
  | .MultiOperandExpr l op rs =>
      .specialCharacter '(' :: serializeExpr l
        ++ .operator op :: .specialCharacter '(' :: commaSeparate (serializeExprList rs)
        ++ [.specialCharacter ')', .specialCharacter ')']
  | .AnyOrAllExpr l op arr kw =>
      .specialCharacter '(' :: serializeExpr l
        ++ .operator op :: .keyWord kw :: .specialCharacter '(' :: serializeExpr arr
        ++ [.specialCharacter ')', .specialCharacter ')']
  | .FuncExpr fn args =>
      .identifier fn false :: .specialCharacter '(' :: commaSeparate (serializeExprList args)
        ++ [.specialCharacter ')']
  | .Cast e toType =>
      .keyWord "CAST" :: .specialCharacter '(' :: serializeExpr e
        ++ [.keyWord "AS", .identifier toType false, .specialCharacter ')']
  | .ArrayExpr args =>
      .keyWord "ARRAY" :: .specialCharacter '[' :: commaSeparate (serializeExprList args)
        ++ [.specialCharacter ']']
  | .Field tableName name =>
      [.identifier tableName false, .specialCharacter '.', .identifier name false]
  | .ParameterExpr index => [.literal (.str ("$" ++ toString index))]

/-- `args.map(arg => arg.serialize())`, spelled recursively. -/
def serializeExprList : List Expr → List (List Token)
  | [] => []
  | e :: es => serializeExpr e :: serializeExprList es

end

/-- expression.ts `serializeOrderBy` entry rendering (`NULLS` plus the variant
as two keywords, matching that file). -/
def serializeOrderByEntry (a : OrderArg) : List Token :=
  serializeExpr a.expr
    ++ (match a.order with
        | some .asc => [.keyWord "ASC"]
        | some .desc => [.keyWord "DESC"]
        | some (.using op) => [.keyWord "USING", .identifier op false]
        | none => [])
    ++ (match a.nulls with
        | some n => [.keyWord "NULLS", .keyWord n]
        | none => [])

/-- expression.ts `serializeOrderBy`: comma-separated entries. -/
def serializeOrderByExpr (args : List OrderArg) : List Token :=
  commaSeparate (args.map serializeOrderByEntry)

/-- expression.ts `serializeFilterWhere`. -/
def serializeFilterWhere (filter : Option Expr) : List Token :=
  match filter with
  | none => []
  | some e =>
      .keyWord "FILTER" :: .specialCharacter '(' :: .keyWord "WHERE" :: serializeExpr e
        ++ [.specialCharacter ')']

/-! ### expression.ts: plain aggregates -/

/-- The field record of the `Aggregate` class. -/
structure Aggregate where
  functionName : String
  args : List Expr
  doDistinct : Bool
  order : Option (List OrderArg)
  filter : Option Expr

/-- The `Aggregate` constructor, which throws on an argumentless call
carrying an ORDER BY list or the DISTINCT flag (in that checking order). -/
def mkAggregate (functionName : String) (args : List Expr) (doDistinct : Bool)
    (order : Option (List OrderArg)) (filter : Option Expr) : Except String Aggregate :=
  if args.isEmpty then
    if order.isSome then
      .error (functionName ++ "(*) cannot specify an ORDER BY clause")
    else if doDistinct then
      .error (functionName ++ "(*) cannot use DISTINCT")
    else .ok ⟨functionName, args, doDistinct, order, filter⟩
  else .ok ⟨functionName, args, doDistinct, order, filter⟩

/-- `Aggregate.distinct`: re-runs the constructor with the flag set. -/
def Aggregate.distinct (a : Aggregate) : Except String Aggregate :=
  mkAggregate a.functionName a.args true a.order a.filter

/-- `Aggregate.orderBy`: re-runs the constructor with the order list set. -/
def Aggregate.orderBy (a : Aggregate) (order : List OrderArg) : Except String Aggregate :=
  mkAggregate a.functionName a.args a.doDistinct (some order) a.filter

/-- `Aggregate.filterWhere`: re-runs the constructor with the filter set. -/
def Aggregate.filterWhere (a : Aggregate) (filter : Expr) : Except String Aggregate :=
  mkAggregate a.functionName a.args a.doDistinct a.order (some filter)

/-- `Aggregate.serialize` from expression.ts. -/
def Aggregate.serialize (a : Aggregate) : List Token :=
  .identifier a.functionName false :: .specialCharacter '('
    :: (if a.doDistinct then [.keyWord "DISTINCT"] else [])
    ++ commaSeparate (serializeExprList a.args)
    ++ (match a.order with | some o => serializeOrderByExpr o | none => [])
    ++ [.specialCharacter ')']
    ++ serializeFilterWhere a.filter

/-! ### expression.ts: the parameter binder `$` -/

/-- The `$` binder: the k-th declared name (0-based `forEach` index `i`) is
bound to `ParameterExpr(i)`, keeping declaration order. -/
def dollarExprs (names : List String) : List (String × Expr) :=
  names.mapIdx fun i n => (n, Expr.ParameterExpr i)

/-- The packer returned by `$`: `keys.map(k => t[k])`. -/
def dollarPacker {α : Type} (names : List String) (t : String → α) : List α :=
  names.map t

/-! ### select-types.ts / select.ts: the subquery state machine -/

/-- The `Distinct` variant of select.ts. -/
inductive Distinct where
  | row
  | on (key : List Expr)

/-- The grouping tree of select-types.ts.  A flat array of grouping elements
and the argument list of `ROLLUP`/`CUBE`/`GROUPING SETS` are all lists of
trees; the serialiser treats them uniformly, as the source's `go` does. -/
inductive GroupingTree where
  | expr (e : Expr)
  | list (es : List GroupingTree)
  | rollup (args : List GroupingTree)
  | cube (args : List GroupingTree)
  | groupingSets (args : List GroupingTree)

/-- Window-frame references of select-types.ts. -/
inductive FrameRef where
  | unboundedPreceding
  | currentRow
  | unboundedFollowing
  | offsetRef (offset : Int) (dir : String)

/-- A window frame `{type, start, end?, exclusion?}`; `type` is the keyword
`RANGE`, `ROWS` or `GROUPS`. -/
structure WindowFrame where
  type : String
  start : FrameRef
  endRef : Option FrameRef
  exclusion : Option String

/-- The `WindowState` variants of select.ts. -/
inductive WindowState where
  | fresh (name : String) (partitionBy : List Expr)
      (orderBy : Option (List OrderArg)) (frame : Option WindowFrame)
  | ref (name : String) (existingWindowName : String)
      (orderBy : Option (List OrderArg)) (frame : Option WindowFrame)

/-- A `FOR` lock clause entry: strength keyword, optional blocking keyword,
optional table list. -/
structure Lock where
  strength : String
  block : Option String
  tables : Option (List String)

/-- The `limit` state field: an expression or the keyword `ALL`. -/
inductive LimitVal where
  | expr (e : Expr)
  | all

/-- The `fetch` state field `{fetch, withTies}`. -/
structure FetchSpec where
  fetch : Expr
  withTies : Bool

/-- From-clause nodes of select.ts.  Subqueries in FROM position
(`FromSubquery`) are outside the scope of this development; the claims only
involve tables, table functions and joins. -/
inductive FromNode where
  | table (aliasN : String) (realName : String)
  | fromFunction (aliasN : String) (args : List Expr) (ordinality : Bool)
      (realName : Option String)
  | innerJoin (left right : FromNode) (onE : Expr) (isLateral : Bool)
  | leftJoin (left right : FromNode) (onE : Expr) (isLateral : Bool)
  | rightJoin (left right : FromNode) (onE : Expr)
  | fullJoin (left right : FromNode) (onE : Expr)
  | crossJoin (left right : FromNode) (isLateral : Bool)

/-- The non-recursive fields of `SubqueryState` (its `setOps` field, the only
recursive one, lives on the `Subquery` node itself). -/
structure QueryCore where
  distinctC : Option Distinct
  whereC : Option Expr
  groupBy : Option GroupingTree
  groupByDistinct : Bool
  having : Option Expr
  windows : List WindowState
  orderBy : Option (List OrderArg)
  offsetC : Option Expr
  fetchC : Option FetchSpec
  limitC : Option LimitVal
  locks : List Lock

/-- A `SubqueryImpl` value: FROM node, projection tuple (name/expression pairs
in declaration order), clause state, and the set-operation continuations
`{type, all, query}` in the order they were added. -/
inductive Subquery where
  | mk (fromN : FromNode) (tuple : List (String × Expr)) (core : QueryCore)
      (setOps : List (String × Bool × Subquery))

/-- Projection: the FROM node of a subquery. -/
def Subquery.fromN : Subquery → FromNode
  | .mk f _ _ _ => f

/-- Projection: the select tuple of a subquery. -/
def Subquery.tuple : Subquery → List (String × Expr)
  | .mk _ t _ _ => t

/-- Projection: the clause state of a subquery. -/
def Subquery.core : Subquery → QueryCore
  | .mk _ _ c _ => c

/-- Projection: the set-operation continuations of a subquery. -/
def Subquery.setOps : Subquery → List (String × Bool × Subquery)
  | .mk _ _ _ s => s

/-- Modelled from the spec: `quote.tableName` is referenced by select.ts but
its defining module is not among the sources; per spec §4.1 and §6 every
emitted identifier goes through the precautionary identifier-quoting rule, so
table names are quoted with `quote.identifier`. -/
def tableNameQ (s : String) : String := Quote.identifier s false

/-! ### select.ts serialisation helpers -/

/-- select.ts `serializeOrderArg` (query level: `NULLS FIRST`/`NULLS LAST` is
a single keyword token here). -/
def serializeOrderArg (arg : OrderArg) : List Token :=
  serializeExpr arg.expr
    ++ (match arg.order with
        | some (.using op) => [.keyWord "USING", .identifier op false]
        | some .asc => [.keyWord "ASC"]
        | some .desc => [.keyWord "DESC"]
        | none => [])
    ++ (match arg.nulls with
        | some n => [.keyWord n]
        | none => [])

/-- select.ts `serializeDistinct`. -/
def serializeDistinct (distinct : Distinct) : List Token :=
  match distinct with
  | .row => [.keyWord "DISTINCT"]
  | .on key =>
      [.keyWord "DISTINCT", .keyWord "ON"] ++ commaSeparate (key.map serializeExpr)

/-- A leading comma when the element index within its parent is positive, as
in the source's `go(tree, ixInParent)`. -/
def commaIf (ix : Nat) : List Token :=
  if ix > 0 then [Token.specialCharacter ','] else []

mutual

/-- The recursive `go` of select.ts `serializeGroupBy`. -/
def goGrouping : GroupingTree → Nat → List Token
  | .expr e, ix => commaIf ix ++ serializeExpr e
  | .list es, ix => commaIf ix ++ goGroupingList es 0
  | .rollup args, ix =>
      commaIf ix ++ .keyWord "ROLLUP" :: .specialCharacter '('
        :: goGroupingList args 0 ++ [.specialCharacter ')']
  | .cube args, ix =>
      commaIf ix ++ .keyWord "CUBE" :: .specialCharacter '('
        :: goGroupingList args 0 ++ [.specialCharacter ')']
  | .groupingSets args, ix =>
      commaIf ix ++ .keyWord "GROUPING SETS" :: .specialCharacter '('
        :: goGroupingList args 0 ++ [.specialCharacter ')']

/-- `forEach(go)` over the children, threading the element index. -/
def goGroupingList : List GroupingTree → Nat → List Token
  | [], _ => []
  | t :: ts, i => goGrouping t i ++ goGroupingList ts (i + 1)

end

/-- select.ts `serializeGroupBy`. -/
def serializeGroupBy (groupBy : GroupingTree) (distinct : Bool) : List Token :=
  .keyWord "GROUP BY" :: (if distinct then [Token.keyWord "DISTINCT"] else [])
    ++ goGrouping groupBy 0

/-- `PARTITION BY` expression list with commas between elements. -/
def partitionByTokens : List Expr → Nat → List Token
  | [], _ => []
  | e :: es, i => commaIf i ++ serializeExpr e ++ partitionByTokens es (i + 1)

/-- select.ts frame-reference rendering: a numeric offset is pushed as a
string literal token, then the keyword. -/
def serializeFrameRef (ref : FrameRef) : List Token :=
  match ref with
  | .unboundedPreceding => [.keyWord "UNBOUNDED PRECEDING"]
  | .currentRow => [.keyWord "CURRENT ROW"]
  | .unboundedFollowing => [.keyWord "UNBOUNDED FOLLOWING"]
  | .offsetRef n dir => [.literal (.str (toString n)), .keyWord dir]

/-- select.ts `serializeWindow`. -/
def serializeWindow (window : WindowState) : List Token :=
  (match window with
   | .fresh name partitionBy _ _ =>
       .identifier name false :: .keyWord "AS" :: .specialCharacter '('
         :: .keyWord "PARTITION BY" :: partitionByTokens partitionBy 0
   | .ref name existingWindowName _ _ =>
       [.identifier name false, .keyWord "AS", .specialCharacter '(',
        .identifier existingWindowName false])
  ++ (match window with
      | .fresh _ _ (some args) _ | .ref _ _ (some args) _ =>
          (args.map serializeOrderArg).flatten
      | _ => [])
  ++ (match window with
      | .fresh _ _ _ (some frame) | .ref _ _ _ (some frame) =>
          .keyWord frame.type
            :: (if frame.endRef.isSome then [Token.keyWord "BETWEEN"] else [])
            ++ serializeFrameRef frame.start
            ++ (match frame.endRef with
                | some e => .keyWord "AND" :: serializeFrameRef e
                | none => [])
            ++ (match frame.exclusion with
                | some x => [Token.keyWord x]
                | none => [])
      | _ => [])
  ++ [.specialCharacter ')']

/-- The `FOR` lock loop at the end of select.ts `serialize`. -/
def lockTokens (locks : List Lock) : List Token :=
  (locks.map fun l =>
    [Token.keyWord "FOR", Token.keyWord l.strength]
      ++ (match l.tables with
          | some ts => Token.keyWord "OF" :: ts.map fun t => Token.identifier (tableNameQ t) false
          | none => [])
      ++ (match l.block with
          | some b => [Token.keyWord b]
          | none => [])).flatten

/-- select.ts `FromNode` serialisation (`serializeJoin` and the per-class
`serialize` methods). -/
def serializeFrom : FromNode → List Token
  | .table aliasN realName =>
      if realName == aliasN then [.identifier (tableNameQ aliasN) false]
      else [.identifier realName false, .keyWord "AS", .identifier aliasN false]
  | .fromFunction aliasN args ordinality realName =>
      .identifier (Quote.identifier (realName.getD aliasN) false) false
        :: .specialCharacter '(' :: commaSeparate (args.map serializeExpr)
        ++ [.specialCharacter ')']
        ++ (if ordinality then [Token.keyWord "WITH ORDINALITY"] else [])
        ++ (match realName with
            | some _ => [Token.keyWord "AS", Token.identifier (Quote.identifier aliasN false) false]
            | none => [])
  | .innerJoin l r onE lat =>
      .specialCharacter '(' :: serializeFrom l
        ++ .keyWord "INNER" :: .keyWord "JOIN"
        :: (if lat then [Token.keyWord "LATERAL"] else [])
        ++ serializeFrom r ++ .keyWord "ON" :: serializeExpr onE ++ [.specialCharacter ')']
  | .leftJoin l r onE lat =>
      .specialCharacter '(' :: serializeFrom l
        ++ .keyWord "LEFT" :: .keyWord "JOIN"
        :: (if lat then [Token.keyWord "LATERAL"] else [])
        ++ serializeFrom r ++ .keyWord "ON" :: serializeExpr onE ++ [.specialCharacter ')']
  | .rightJoin l r onE =>
      .specialCharacter '(' :: serializeFrom l
        ++ .keyWord "RIGHT" :: .keyWord "JOIN" :: serializeFrom r
        ++ .keyWord "ON" :: serializeExpr onE ++ [.specialCharacter ')']
  | .fullJoin l r onE =>
      .specialCharacter '(' :: serializeFrom l
        ++ .keyWord "FULL" :: .keyWord "JOIN" :: serializeFrom r
        ++ .keyWord "ON" :: serializeExpr onE ++ [.specialCharacter ')']
  | .crossJoin l r lat =>
      .specialCharacter '(' :: serializeFrom l
        ++ .keyWord "CROSS JOIN" :: (if lat then [Token.keyWord "LATERAL"] else [])
        ++ serializeFrom r ++ [.specialCharacter ')']

/-- select.ts `serializeLimits`: `FETCH` requires `OFFSET` (throwing the
source's message, typo included), and renders the SQL:2008 form; otherwise
`LIMIT` (possibly `ALL`) then `OFFSET`. -/
def serializeLimits (core : QueryCore) : Except String (List Token) :=
  match core.fetchC with
  | some f =>
      match core.offsetC with
      | none => .error "Recieved FETCH without OFFSET"
      | some off =>
          .ok (.keyWord "OFFSET" :: serializeExpr off
            ++ .keyWord "ROWS" :: .keyWord "FETCH NEXT" :: serializeExpr f.fetch
            ++ [.keyWord "ROWS", .keyWord (if f.withTies then "WITH TIES" else "ONLY")])
  | none =>
      .ok ((match core.limitC with
            | some .all => [Token.keyWord "LIMIT", Token.keyWord "ALL"]
            | some (.expr e) => Token.keyWord "LIMIT" :: serializeExpr e
            | none => [])
        ++ (match core.offsetC with
            | some o => Token.keyWord "OFFSET" :: serializeExpr o
            | none => []))

/-- One projected field: its expression, `AS`, and the quoted column name. -/
def projField (p : String × Expr) : List Token :=
  serializeExpr p.2 ++ [.keyWord "AS", .identifier (Quote.identifier p.1 false) false]

mutual

/-- select.ts `SubqueryImpl.serialize`: the clause emission sequence. -/
def serializeSubquery : Subquery → Except String (List Token)
  | .mk fromN tuple core setOps => do
      let distinctPart :=
        match core.distinctC with
        | some d => serializeDistinct d
        | none => []
      let projPart :=
        if tuple.isEmpty then [Token.specialCharacter '*']
        else commaSeparate (tuple.map projField)
      let wherePart :=
        match core.whereC with
        | some w => Token.keyWord "WHERE" :: serializeExpr w
        | none => []
      let groupPart :=
        match core.groupBy with
        | some g => serializeGroupBy g core.groupByDistinct
        | none => []
      let havingPart :=
        match core.having with
        | some h => Token.keyWord "HAVING" :: serializeExpr h
        | none => []
      let windowPart :=
        if core.windows.isEmpty then []
        else Token.keyWord "WINDOW" :: commaSeparate (core.windows.map serializeWindow)
      let setOpPart ← serializeSetOps setOps
      let orderPart :=
        match core.orderBy with
        | some args => Token.keyWord "ORDER BY" :: commaSeparate (args.map serializeOrderArg)
        | none => []
      let limitsPart ← serializeLimits core
      .ok (Token.keyWord "SELECT" :: distinctPart ++ projPart
        ++ Token.keyWord "FROM" :: serializeFrom fromN
        ++ wherePart ++ groupPart ++ havingPart ++ windowPart
        ++ setOpPart ++ orderPart ++ limitsPart ++ lockTokens core.locks)

/-- The set-operation loop of `serialize`: for each continuation push its type
keyword, `ALL` when flagged, and the continuation query's tokens. -/
def serializeSetOps : List (String × Bool × Subquery) → Except String (List Token)
  | [] => .ok []
  | (t, a, q) :: rest => do
      let qt ← serializeSubquery q
      let rt ← serializeSetOps rest
      .ok (Token.keyWord t :: (if a then [Token.keyWord "ALL"] else []) ++ qt ++ rt)

end

/-- expression.ts `SubqueryExpr`: a subquery reified as an expression (the
result of `.scalar()`), serialising in parentheses. -/
structure SubqueryExprS where
  sub : Subquery

/-- `SubqueryExpr.serialize`: the wrapped subquery's tokens in parentheses. -/
def SubqueryExprS.serialize (s : SubqueryExprS) : Except String (List Token) := do
  let ts ← serializeSubquery s.sub
  .ok (Token.specialCharacter '(' :: ts ++ [Token.specialCharacter ')'])

/-- select.ts `SubqueryImpl.scalar`: requires a one-column projection,
otherwise throws the scalar-arity message. -/
def Subquery.scalar (q : Subquery) : Except String SubqueryExprS :=
  if q.tuple.length ≠ 1 then .error "Scalar subqueries must return exactly one column"
  else .ok ⟨q⟩

/-! ### Clause views of the serialiser output

Each function below names one clause of `SubqueryImpl.serialize`, so the
clause-order theorems can state the emitted token stream as one flat
concatenation. -/

/-- The distinct clause, when set. -/
def distinctClause (core : QueryCore) : List Token :=
  match core.distinctC with
  | some d => serializeDistinct d
  | none => []

/-- The select list: `*` for an empty tuple, else the comma-separated
projected fields. -/
def selectListClause (tuple : List (String × Expr)) : List Token :=
  if tuple.isEmpty then [Token.specialCharacter '*']
  else commaSeparate (tuple.map projField)

/-- The WHERE clause, when set. -/
def whereClause (core : QueryCore) : List Token :=
  match core.whereC with
  | some w => Token.keyWord "WHERE" :: serializeExpr w
  | none => []

/-- The GROUP BY clause, when set. -/
def groupByClause (core : QueryCore) : List Token :=
  match core.groupBy with
  | some g => serializeGroupBy g core.groupByDistinct
  | none => []

/-- The HAVING clause, when set. -/
def havingClause (core : QueryCore) : List Token :=
  match core.having with
  | some h => Token.keyWord "HAVING" :: serializeExpr h
  | none => []

/-- The WINDOW clause, when any windows were added. -/
def windowClause (core : QueryCore) : List Token :=
  if core.windows.isEmpty then []
  else Token.keyWord "WINDOW" :: commaSeparate (core.windows.map serializeWindow)

/-- The ORDER BY clause, when set. -/
def orderByClause (core : QueryCore) : List Token :=
  match core.orderBy with
  | some args => Token.keyWord "ORDER BY" :: commaSeparate (args.map serializeOrderArg)
  | none => []

/-! ### Claim-side formulations -/

/-- The acceptance condition stated by the operator-safety property: in the
whitelist, or containing a character of the operator class while containing
neither comment starter. -/
def operatorAccepted (op : String) : Bool :=
  Quote.validOperators.contains op
    || (Quote.hasOperatorChar op && !hasSub op "--" && !hasSub op "/*")

/-- The next token closes a bracket or is a comma (the claim's before-token
exceptions, merged). -/
def closesOrComma (next : Token) : Bool :=
  match next with
  | .specialCharacter c => c == ')' || c == ']' || c == ','
  | _ => false

/-- The token is one of the keywords CAST, ARRAY, ANY, ALL, spelled as the
claim does. -/
def tightKeywordSpec (t : Token) : Bool :=
  match t with
  | .keyWord v => v == "CAST" || v == "ARRAY" || v == "ANY" || v == "ALL"
  | _ => false

/-- The spacing-exception rule as the renderer actually applies it: no space
after `(` or `[`; none before `)`, `]` or `,`; none between an identifier and
a following `(`; and none after the keywords CAST, ARRAY, ANY, ALL. -/
def specNoSpace (t next : Token) : Bool :=
  isOpenBracketTok t || closesOrComma next || isIdentThenParen t next
    || tightKeywordSpec t

/-- The renderer restated from the spacing rule: render every token and insert
one space between each consecutive pair except where `specNoSpace` holds. -/
def unlexSpec : List Token → Except String String
  | [] => .ok ""
  | token :: rest => do
      let s ← unlex1 token
      let tail ← unlexSpec rest
      .ok (s ++ (match rest with
                 | [] => ""
                 | next :: _ => if specNoSpace token next then "" else " ") ++ tail)

/-- Bool extensionality via propositional equivalence. -/
theorem bool_eq_of_iff {a b : Bool} (h : a = true ↔ b = true) : a = b := by
  cases a <;> cases b <;> simp_all

/-- The pairwise spacing-exception rule agrees with the negation of the
source's `needsSpaceAfter` condition. -/
theorem spacing_agree (t n : Token) : specNoSpace t n = !needsSpaceAfter t n := by
  apply bool_eq_of_iff
  cases t <;> cases n <;>
    simp [specNoSpace, needsSpaceAfter, isOpenBracketTok, isIdentThenParen, isTightKeyword,
          isCloseBracketTok, isCommaTok, closesOrComma, tightKeywordSpec,
          List.contains_cons, List.contains_nil] <;>
    tauto

/-! ### Claim theorems -/

/-- C1: the claim says the k-th declared parameter (1-based) serialises to the
positional placeholder token `$k`.  In the source, `$` binds the k-th name to
`ParameterExpr(i)` with the 0-based `forEach` index, and `ParameterExpr`
serialises as a string-*literal* token, so the first declared name renders as
the quoted string literal containing `$0` rather than the placeholder `$1`.
The packer half of the claim behaves as stated (length and declaration
order). -/
theorem dollar_first_param_renders_dollar_zero :
    dollarExprs ["userId"] = [("userId", Expr.ParameterExpr 0)]
    ∧ serializeExpr (Expr.ParameterExpr 0) = [Token.literal (Value.str "$0")]
    ∧ unlex [Token.literal (Value.str "$0")] = .ok (squote ++ "$0" ++ squote)
    ∧ squote ++ "$0" ++ squote ≠ "$1"
    ∧ dollarPacker ["userId"] (fun _ => (42 : Nat)) = [42] :=
  ⟨rfl, rfl, rfl, by decide, rfl⟩

/-- C2: the claim (and the repository's own serializer test) requires a
force-quoted identifier to render wrapped in double quotes.  The source's
`unlex1` takes the force-quote branch but calls `quote.identifier` without
forwarding the flag, so a plain lowercase identifier such as `normal_name`
renders bare. -/
theorem force_quoted_identifier_rendered_bare :
    unlex [Token.identifier "normal_name" true] = .ok "normal_name"
    ∧ "normal_name"
        ≠ String.singleton doubleQuote ++ "normal_name" ++ String.singleton doubleQuote :=
  ⟨rfl, by decide⟩

/-- C3: the operator validator returns the operator unchanged exactly when it
is whitelisted, or contains a character of the symbolic class and neither of
the comment starters `--` and `/*`; every other input throws InvalidOperator,
and in particular every non-whitelisted string containing `--` or `/*` is
rejected. -/
theorem operator_accepts_exactly_safe (op : String) :
    (Quote.operator op = .ok op ↔ operatorAccepted op = true)
    ∧ (Quote.operator op = .error ("Invalid operator: " ++ op) ↔ operatorAccepted op = false)
    ∧ (Quote.validOperators.contains op = false →
       (hasSub op "--" || hasSub op "/*") = true →
       Quote.operator op = .error ("Invalid operator: " ++ op)) := by
  cases h1 : Quote.validOperators.contains op <;>
    cases h2 : Quote.hasOperatorChar op <;>
    cases h3 : hasSub op "--" <;>
    cases h4 : hasSub op "/*" <;>
    simp_all [Quote.operator, operatorAccepted]

/-- C3 witness: both comment starters are rejected at concrete inputs. -/
theorem operator_accepts_exactly_safe_witness :
    Quote.operator "--" = .error ("Invalid operator: " ++ "--")
    ∧ Quote.operator "/*x" = .error ("Invalid operator: " ++ "/*x") :=
  ⟨(operator_accepts_exactly_safe "--").2.2 (by decide) (by decide),
   (operator_accepts_exactly_safe "/*x").2.2 (by decide) (by decide)⟩

/-- C4: whenever the set-operation continuations and the pagination clause
serialise successfully, `serialize` emits exactly SELECT, the distinct clause,
the select list (each field as its expression, AS, and the quoted column
name), FROM, WHERE, GROUP BY, HAVING, WINDOW, the set-operation continuations
in order, ORDER BY, the pagination clause, and the FOR lock clauses, in that
fixed order. -/
theorem serialize_clause_order (fromN : FromNode) (tuple : List (String × Expr))
    (core : QueryCore) (setOps : List (String × Bool × Subquery)) (so lim : List Token)
    (hso : serializeSetOps setOps = .ok so) (hlim : serializeLimits core = .ok lim) :
    serializeSubquery (.mk fromN tuple core setOps)
      = .ok (Token.keyWord "SELECT" :: distinctClause core ++ selectListClause tuple
          ++ Token.keyWord "FROM" :: serializeFrom fromN
          ++ whereClause core ++ groupByClause core ++ havingClause core
          ++ windowClause core ++ so ++ orderByClause core ++ lim
          ++ lockTokens core.locks) := by
  simp only [serializeSubquery, hso, hlim]
  rfl

/-- A clause state with nothing set, used by concrete queries below. -/
def sampleCore : QueryCore := ⟨none, none, none, false, none, [], none, none, none, none, []⟩

/-- A one-column query over a plain table. -/
def sampleQuery : Subquery :=
  .mk (.table "users" "users") [("id", .Field "users" "id")] sampleCore []

/-- C4 witness: the clause-order theorem applied to a concrete query. -/
theorem serialize_clause_order_witness :
    serializeSubquery sampleQuery
      = .ok (Token.keyWord "SELECT" :: distinctClause sampleCore
          ++ selectListClause [("id", Expr.Field "users" "id")]
          ++ Token.keyWord "FROM" :: serializeFrom (.table "users" "users")
          ++ whereClause sampleCore ++ groupByClause sampleCore ++ havingClause sampleCore
          ++ windowClause sampleCore ++ [] ++ orderByClause sampleCore ++ []
          ++ lockTokens sampleCore.locks) :=
  serialize_clause_order _ _ _ _ [] [] rfl rfl

/-- C5 counterexample: the claim allows the space after CAST/ARRAY/ANY/ALL to
be dropped only before a bracketed form, but the renderer drops it before any
token: CAST directly followed by the keyword FROM renders with no space. -/
theorem cast_keyword_space_dropped_always :
    unlex [Token.keyWord "CAST", Token.keyWord "FROM"] = .ok "CASTFROM"
    ∧ "CASTFROM" ≠ "CAST FROM" :=
  ⟨rfl, by decide⟩

/-- C5 (amended): the renderer inserts exactly one space between consecutive
rendered tokens except after `(`/`[`, before `)`/`]`/`,`, between an
identifier and a following `(`, and after the keywords CAST, ARRAY, ANY, ALL
regardless of the following token. -/
theorem unlex_spacing (ts : List Token) : unlex ts = unlexSpec ts := by
  induction ts with
  | nil => rfl
  | cons t rest ih =>
    cases rest with
    | nil => rfl
    | cons n r =>
      have hsep : (if needsSpaceAfter t n then " " else "")
          = (if specNoSpace t n then "" else " ") := by
        rw [spacing_agree]
        cases needsSpaceAfter t n <;> rfl
      have e1 : unlex (t :: n :: r)
          = (unlex1 t >>= fun s => unlex (n :: r) >>= fun tail =>
              Except.ok (s ++ (if needsSpaceAfter t n then " " else "") ++ tail)) := rfl
      have e2 : unlexSpec (t :: n :: r)
          = (unlex1 t >>= fun s => unlexSpec (n :: r) >>= fun tail =>
              Except.ok (s ++ (if specNoSpace t n then "" else " ") ++ tail)) := rfl
      rw [e1, e2]
      simp only [ih, hsep]

/-- C6: `.scalar()` succeeds exactly on a one-column projection, yielding the
parenthesised subquery expression; any other projection width throws the
scalar-arity error. -/
theorem scalar_arity (q : Subquery) :
    (q.tuple.length = 1 →
       q.scalar = .ok ⟨q⟩
       ∧ ∀ ts, serializeSubquery q = .ok ts →
           SubqueryExprS.serialize ⟨q⟩
             = .ok (Token.specialCharacter '(' :: ts ++ [Token.specialCharacter ')']))
    ∧ (q.tuple.length ≠ 1 →
       q.scalar = .error "Scalar subqueries must return exactly one column") := by
  constructor
  · intro h
    constructor
    · simp [Subquery.scalar, h]
    · intro ts hts
      simp only [SubqueryExprS.serialize, hts]
      rfl
  · intro h
    simp [Subquery.scalar, h]

/-- A two-column query over a plain table. -/
def twoColQuery : Subquery :=
  .mk (.table "users" "users")
    [("id", .Field "users" "id"), ("name", .Field "users" "name")] sampleCore []

/-- C6 witness: scalar on one column succeeds, on two columns throws. -/
theorem scalar_arity_witness :
    sampleQuery.scalar = .ok ⟨sampleQuery⟩
    ∧ twoColQuery.scalar = .error "Scalar subqueries must return exactly one column" :=
  ⟨((scalar_arity sampleQuery).1 rfl).1, (scalar_arity twoColQuery).2 (by decide)⟩

/-- C7: a state with FETCH but no OFFSET makes both `serializeLimits` and the
whole `serialize` throw the missing-offset error; with both set, the
pagination renders as OFFSET n ROWS FETCH NEXT m ROWS followed by ONLY or
WITH TIES. -/
theorem fetch_requires_offset (core : QueryCore) (f : FetchSpec)
    (fromN : FromNode) (tuple : List (String × Expr))
    (setOps : List (String × Bool × Subquery)) (so : List Token) :
    (core.fetchC = some f → core.offsetC = none →
       serializeLimits core = .error "Recieved FETCH without OFFSET"
       ∧ (serializeSetOps setOps = .ok so →
          serializeSubquery (.mk fromN tuple core setOps)
            = .error "Recieved FETCH without OFFSET"))
    ∧ (∀ off, core.fetchC = some f → core.offsetC = some off →
       serializeLimits core
         = .ok (Token.keyWord "OFFSET" :: serializeExpr off
             ++ Token.keyWord "ROWS" :: Token.keyWord "FETCH NEXT" :: serializeExpr f.fetch
             ++ [Token.keyWord "ROWS",
                 Token.keyWord (if f.withTies then "WITH TIES" else "ONLY")])) := by
  constructor
  · intro hf hoff
    have hl : serializeLimits core = .error "Recieved FETCH without OFFSET" := by
      simp [serializeLimits, hf, hoff]
    exact ⟨hl, fun hso => by simp only [serializeSubquery, hso, hl]; rfl⟩
  · intro off hf hoff
    simp [serializeLimits, hf, hoff]

/-- A state with FETCH set and no OFFSET. -/
def fetchNoOffsetCore : QueryCore :=
  ⟨none, none, none, false, none, [], none, none,
   some ⟨.Constant (.num 10), false⟩, none, []⟩

/-- A state with both OFFSET and FETCH (WITH TIES) set. -/
def fetchWithOffsetCore : QueryCore :=
  ⟨none, none, none, false, none, [], none, some (.Constant (.num 5)),
   some ⟨.Constant (.num 10), true⟩, none, []⟩

/-- C7 witness: both branches at concrete states. -/
theorem fetch_requires_offset_witness :
    serializeLimits fetchNoOffsetCore = .error "Recieved FETCH without OFFSET"
    ∧ serializeSubquery (.mk (.table "t" "t") [] fetchNoOffsetCore [])
        = .error "Recieved FETCH without OFFSET"
    ∧ serializeLimits fetchWithOffsetCore
        = .ok (Token.keyWord "OFFSET" :: serializeExpr (.Constant (.num 5))
            ++ Token.keyWord "ROWS" :: Token.keyWord "FETCH NEXT"
            :: serializeExpr (.Constant (.num 10))
            ++ [Token.keyWord "ROWS", Token.keyWord "WITH TIES"]) :=
  ⟨((fetch_requires_offset fetchNoOffsetCore ⟨.Constant (.num 10), false⟩
      (.table "t" "t") [] [] []).1 rfl rfl).1,
   ((fetch_requires_offset fetchNoOffsetCore ⟨.Constant (.num 10), false⟩
      (.table "t" "t") [] [] []).1 rfl rfl).2 rfl,
   ((fetch_requires_offset fetchWithOffsetCore ⟨.Constant (.num 10), true⟩
      (.table "t" "t") [] [] []).2 (.Constant (.num 5)) rfl rfl)⟩

/-- C8: the aggregate constructor on an empty argument list throws when an
ORDER BY list or the DISTINCT flag is supplied (ORDER BY checked first) and
succeeds otherwise; consequently `.distinct()` and `.orderBy(...)` on an
argumentless aggregate throw, while the bare argumentless aggregate is
accepted. -/
theorem aggregate_argless_rejects_options (name : String) (filt : Option Expr)
    (d : Bool) (ord : List OrderArg) (a : Aggregate) :
    (mkAggregate name [] d (some ord) filt
       = .error (name ++ "(*) cannot specify an ORDER BY clause"))
    ∧ (mkAggregate name [] true none filt = .error (name ++ "(*) cannot use DISTINCT"))
    ∧ (mkAggregate name [] false none filt = .ok ⟨name, [], false, none, filt⟩)
    ∧ (a.args = [] → ∃ msg, a.distinct = .error msg)
    ∧ (a.args = [] → ∃ msg, a.orderBy ord = .error msg) := by
  refine ⟨by simp [mkAggregate], by simp [mkAggregate], by simp [mkAggregate], ?_, ?_⟩
  · intro h
    cases ho : a.order with
    | some o =>
        exact ⟨a.functionName ++ "(*) cannot specify an ORDER BY clause",
          by simp [Aggregate.distinct, mkAggregate, h, ho]⟩
    | none =>
        exact ⟨a.functionName ++ "(*) cannot use DISTINCT",
          by simp [Aggregate.distinct, mkAggregate, h, ho]⟩
  · intro h
    exact ⟨a.functionName ++ "(*) cannot specify an ORDER BY clause",
      by simp [Aggregate.orderBy, mkAggregate, h]⟩

/-- C8 witness: a concrete argumentless `count` aggregate. -/
theorem aggregate_argless_rejects_options_witness :
    mkAggregate "count" [] false none none = .ok ⟨"count", [], false, none, none⟩
    ∧ (∃ msg, (Aggregate.mk "count" [] false none none).distinct = .error msg)
    ∧ (∃ msg, (Aggregate.mk "count" [] false none none).orderBy [] = .error msg)
    ∧ mkAggregate "count" [] true none none
        = .error ("count" ++ "(*) cannot use DISTINCT") :=
  ⟨(aggregate_argless_rejects_options "count" none false [] ⟨"count", [], false, none, none⟩).2.2.1,
   (aggregate_argless_rejects_options "count" none false [] ⟨"count", [], false, none, none⟩).2.2.2.1 rfl,
   (aggregate_argless_rejects_options "count" none false [] ⟨"count", [], false, none, none⟩).2.2.2.2 rfl,
   (aggregate_argless_rejects_options "count" none true [] ⟨"count", [], false, none, none⟩).2.1⟩

/-- C9: serialisation is deterministic and repeatable.  The embedding is
state-free because the source's `serialize` reads only its immutable receiver
and writes only the locally-allocated token array, so two serialisations of
the same query value are the same pure function application and yield
identical token streams. -/
theorem serialize_deterministic (q : Subquery) :
    serializeSubquery q = serializeSubquery q := rfl

/-- C10: a query whose projection tuple is empty serialises its select list as
the single token `*` (yielding SELECT * FROM ...) instead of failing or
emitting an empty list. -/
theorem empty_projection_star (fromN : FromNode) (core : QueryCore)
    (setOps : List (String × Bool × Subquery)) (so lim : List Token)
    (hso : serializeSetOps setOps = .ok so) (hlim : serializeLimits core = .ok lim) :
    serializeSubquery (.mk fromN [] core setOps)
      = .ok (Token.keyWord "SELECT" :: distinctClause core
          ++ [Token.specialCharacter '*']
          ++ Token.keyWord "FROM" :: serializeFrom fromN
          ++ whereClause core ++ groupByClause core ++ havingClause core
          ++ windowClause core ++ so ++ orderByClause core ++ lim
          ++ lockTokens core.locks) := by
  simp only [serializeSubquery, hso, hlim]
  rfl

/-- C10 witness: SELECT * over a concrete table. -/
theorem empty_projection_star_witness :
    serializeSubquery (.mk (.table "users" "users") [] sampleCore [])
      = .ok (Token.keyWord "SELECT" :: distinctClause sampleCore
          ++ [Token.specialCharacter '*']
          ++ Token.keyWord "FROM" :: serializeFrom (.table "users" "users")
          ++ whereClause sampleCore ++ groupByClause sampleCore ++ havingClause sampleCore
          ++ windowClause sampleCore ++ [] ++ orderByClause sampleCore ++ []
          ++ lockTokens sampleCore.locks) :=
  empty_projection_star _ _ _ [] [] rfl rfl

end Tsqgen
